import Mathlib

/-!
Formal model of the todo REST backend (`backend/index.ts`): the SQLite
`todos` table, the five `/api/todos` route handlers with their validation
logic, and the top-level error handler. JSON values are modelled
explicitly so that numeric and boolean fields stay distinct on the wire.
-/

namespace TodoApp

/-- JSON values as parsed from request bodies / serialized into responses. -/
inductive JValue where
  | jnull : JValue
  | jbool : Bool → JValue
  | jnum : Int → JValue
  | jstr : String → JValue
  | jarr : List JValue → JValue
  | jobj : List (String × JValue) → JValue

/-- Last-wins field lookup on a parsed JSON object (`JSON.parse` keeps the
last occurrence of a duplicated key). -/
def objField (fields : List (String × JValue)) (k : String) : Option JValue :=
  fields.foldl (fun acc kv => if kv.1 == k then some kv.2 else acc) none

/-- Property access `v.k` for the keys the handlers read (`text`,
`completed`): objects carry their fields, every other value yields
`undefined` (`none`). The handlers never access a property of `null`
(destructuring `null` throws first, see the handler definitions). -/
def jsField : JValue → String → Option JValue
  | .jobj fields, k => objField fields k
  | _, _ => none

/-- Whitespace test backing JavaScript `String.prototype.trim`. -/
def isWs (c : Char) : Bool := c.isWhitespace

/-- Model of JavaScript `text.trim()`: drop whitespace from both ends. -/
def jsTrim (s : String) : String :=
  String.mk ((s.data.dropWhile isWs).rdropWhile isWs)

/-- A row of the `todos` table
(`id TEXT PRIMARY KEY, text TEXT NOT NULL, completed INTEGER DEFAULT 0,
createdAt TEXT NOT NULL`). `completed` is the stored SQLite integer. -/
structure Row where
  id : String
  text : String
  completed : Int
  createdAt : String
  deriving Repr, DecidableEq

/-- The `todos` table, rows in insertion (rowid) order. -/
abbrev Table := List Row

/-- `SELECT * FROM todos WHERE id = ?` — point lookup, `none` when absent
(`get()` returns `null`). -/
def getById (t : Table) (i : String) : Option Row :=
  t.find? (fun r => r.id == i)

/-- Insertion step of `ORDER BY createdAt DESC`: place `r` after every row
with a strictly later `createdAt` (TEXT comparison); rows with equal keys
have no guaranteed relative order. -/
def insertDesc (r : Row) : Table → Table
  | [] => [r]
  | x :: xs =>
      if r.createdAt < x.createdAt then x :: insertDesc r xs else r :: x :: xs

/-- `SELECT * FROM todos ORDER BY createdAt DESC`. -/
def listAll (t : Table) : Table := t.foldr insertDesc []

/-- `UPDATE todos SET completed = ? WHERE id = ?`. -/
def updateCompleted (t : Table) (i : String) (c : Int) : Table :=
  t.map (fun r => if r.id == i then { r with completed := c } else r)

/-- `DELETE FROM todos WHERE id = ?`. -/
def deleteById (t : Table) (i : String) : Table :=
  t.filter (fun r => !(r.id == i))

/-- An HTTP response body: empty (`null` body), plain text, or JSON. -/
inductive RespBody where
  | empty : RespBody
  | text : String → RespBody
  | json : JValue → RespBody

/-- Status code plus body of an HTTP response. -/
structure ApiResponse where
  status : Nat
  body : RespBody

/-- Serialization of a row by `Response.json`: `completed` is emitted as
the stored integer. -/
def rowToJson (r : Row) : JValue :=
  .jobj [("id", .jstr r.id), ("text", .jstr r.text),
         ("completed", .jnum r.completed), ("createdAt", .jstr r.createdAt)]

/-- `Response.json(x)` where `x` is the result of a point lookup: a missed
lookup serializes as JSON `null`. -/
def jsonOfLookup : Option Row → RespBody
  | some r => .json (rowToJson r)
  | none => .json .jnull

/-- `GET /api/todos`. -/
def handleGetTodos (t : Table) : ApiResponse :=
  ⟨200, .json (.jarr ((listAll t).map rowToJson))⟩

/-- `POST /api/todos`. `body` is the result of `await req.json()` (`none`
when parsing threw); `i` and `createdAt` are the server-generated
`crypto.randomUUID()` and `new Date().toISOString()` values. A parse
failure, a destructuring of a `null` body, and a primary-key collision on
INSERT all escape to the top-level `error` handler, which answers 500.
The validation `!text || typeof text !== "string" || !text.trim()`
rejects exactly the bodies whose `text` property is not a string with a
non-empty trimmed value. -/
def handlePostTodos (t : Table) (body : Option JValue) (i createdAt : String) :
    ApiResponse × Table :=
  match body with
  | none => (⟨500, .text "Internal Server Error"⟩, t)
  | some .jnull => (⟨500, .text "Internal Server Error"⟩, t)
  | some v =>
      match jsField v "text" with
      | some (.jstr s) =>
          if s == "" || jsTrim s == "" then
            (⟨400, .text "Invalid todo text"⟩, t)
          else if (getById t i).isSome then
            (⟨500, .text "Internal Server Error"⟩, t)
          else
            let t2 := t ++ [⟨i, jsTrim s, 0, createdAt⟩]
            (⟨201, jsonOfLookup (getById t2 i)⟩, t2)
      | _ => (⟨400, .text "Invalid todo text"⟩, t)

/-- `PATCH /api/todos/:id`: type-check `completed` strictly
(`typeof completed !== "boolean"`), then check existence, then update and
re-read. -/
def handlePatchTodo (t : Table) (pid : String) (body : Option JValue) :
    ApiResponse × Table :=
  match body with
  | none => (⟨500, .text "Internal Server Error"⟩, t)
  | some .jnull => (⟨500, .text "Internal Server Error"⟩, t)
  | some v =>
      match jsField v "completed" with
      | some (.jbool b) =>
          match getById t pid with
          | none => (⟨404, .text "Todo not found"⟩, t)
          | some _ =>
              let t2 := updateCompleted t pid (if b then 1 else 0)
              (⟨200, jsonOfLookup (getById t2 pid)⟩, t2)
      | _ => (⟨400, .text "Invalid request"⟩, t)

/-- `DELETE /api/todos/:id`: existence check, then delete. -/
def handleDeleteTodo (t : Table) (pid : String) : ApiResponse × Table :=
  match getById t pid with
  | none => (⟨404, .text "Todo not found"⟩, t)
  | some _ => (⟨204, .empty⟩, deleteById t pid)

/-- `GET /api/todos/:id`. -/
def handleGetTodo (t : Table) (pid : String) : ApiResponse :=
  match getById t pid with
  | none => ⟨404, .text "Todo not found"⟩
  | some r => ⟨200, .json (rowToJson r)⟩

/-- Tables reachable from the empty store through the mutating API
operations (`GET` and `OPTIONS` requests never touch the table). -/
inductive Reachable : Table → Prop where
  | init : Reachable []
  | post (t : Table) (body : Option JValue) (i createdAt : String) :
      Reachable t → Reachable (handlePostTodos t body i createdAt).2
  | patch (t : Table) (pid : String) (body : Option JValue) :
      Reachable t → Reachable (handlePatchTodo t pid body).2
  | del (t : Table) (pid : String) :
      Reachable t → Reachable (handleDeleteTodo t pid).2

/-! ### Helper lemmas -/

theorem dropWhile_eq_self_of_prefix {α : Type} {p : α → Bool} {l m : List α}
    (hpre : m <+: l) (hl : List.dropWhile p l = l) : List.dropWhile p m = m := by
  cases m with
  | nil => rfl
  | cons a as =>
      obtain ⟨tl, htl⟩ := hpre
      subst htl
      rw [List.cons_append, List.dropWhile_cons] at hl
      rw [List.dropWhile_cons]
      by_cases h : p a = true
      · rw [if_pos h] at hl
        have h1 : (List.dropWhile p (as ++ tl)).length ≤ (as ++ tl).length :=
          (List.dropWhile_suffix p).length_le
        have h2 := congrArg List.length hl
        simp only [List.length_cons] at h2
        omega
      · rw [if_neg h]

theorem jsTrim_data (s : String) :
    (jsTrim s).data = (s.data.dropWhile isWs).rdropWhile isWs := rfl

theorem jsTrim_idem (s : String) : jsTrim (jsTrim s) = jsTrim s := by
  have h1 : List.dropWhile isWs ((s.data.dropWhile isWs).rdropWhile isWs) =
      (s.data.dropWhile isWs).rdropWhile isWs :=
    dropWhile_eq_self_of_prefix ( List.rdropWhile_prefix isWs (s.data.dropWhile isWs))
      (List.dropWhile_idempotent isWs s.data)
  show String.mk _ = String.mk _
  rw [jsTrim_data, h1]
  exact congrArg String.mk (List.rdropWhile_idempotent isWs (s.data.dropWhile isWs))

theorem getById_nil (i : String) : getById [] i = none := rfl

theorem getById_append_single {t : Table} {i : String} (r : Row)
    (h : getById t i = none) (hr : r.id = i) : getById (t ++ [r]) i = some r := by
  unfold getById at h ⊢
  rw [List.find?_append, h]
  simp [List.find?, hr]

theorem getById_deleteById (t : Table) (i : String) :
    getById (deleteById t i) i = none := by
  rw [getById, List.find?_eq_none]
  intro r hr
  rw [deleteById, List.mem_filter] at hr
  simpa using hr.2

theorem getById_mem {t : Table} {i : String} {r : Row} (h : getById t i = some r) :
    r ∈ t ∧ r.id = i := by
  refine ⟨List.mem_of_find?_eq_some h, ?_⟩
  simpa using List.find?_some h

theorem getById_updateCompleted_self {t : Table} {i : String} {r0 : Row} (c : Int)
    (h : getById t i = some r0) :
    getById (updateCompleted t i c) i = some { r0 with completed := c } := by
  induction t with
  | nil => simp [getById] at h
  | cons x xs ih =>
      rw [updateCompleted, List.map_cons]
      by_cases hx : (x.id == i) = true
      · rw [getById, @List.find?_cons_of_pos Row (fun r => r.id == i) x xs hx] at h
        injection h with h
        subst h
        rw [if_pos hx, getById]
        exact @List.find?_cons_of_pos Row (fun r => r.id == i) _ _ hx
      · rw [getById, @List.find?_cons_of_neg Row (fun r => r.id == i) x xs hx] at h
        rw [if_neg hx, getById, @List.find?_cons_of_neg Row (fun r => r.id == i) x _ hx]
        have h2 := ih h
        rw [getById, updateCompleted] at h2
        exact h2

theorem handlePostTodos_ok {t : Table} {v : JValue} {s : String} {i : String} (c : String)
    (hf : jsField v "text" = some (JValue.jstr s)) (hs : jsTrim s ≠ "")
    (hfresh : getById t i = none) :
    handlePostTodos t (some v) i c =
      (⟨201, RespBody.json (rowToJson ⟨i, jsTrim s, 0, c⟩)⟩,
       t ++ [⟨i, jsTrim s, 0, c⟩]) := by
  have hs0 : (s == "") = false := by
    simp only [beq_eq_false_iff_ne, ne_eq]
    intro he; subst he; exact hs rfl
  have hst : (jsTrim s == "") = false := by
    simp only [beq_eq_false_iff_ne, ne_eq]; exact hs
  have hvnn : v ≠ JValue.jnull := by
    intro he; subst he; simp [jsField] at hf
  have hget : getById (t ++ [(⟨i, jsTrim s, 0, c⟩ : Row)]) i = some ⟨i, jsTrim s, 0, c⟩ :=
    getById_append_single _ hfresh rfl
  unfold handlePostTodos
  split
  · next heq => exact Option.noConfusion heq
  · next heq => injection heq with e; exact absurd e hvnn
  · next val hne heq =>
      injection heq with e
      subst e
      simp only [hf, hs0, hst, Bool.or_self, Bool.false_eq_true, if_false, hfresh,
        Option.isSome_none, hget, jsonOfLookup]

theorem handlePostTodos_table (t : Table) (body : Option JValue) (i c : String) :
    (handlePostTodos t body i c).2 = t ∨
    ∃ s : String, jsTrim s ≠ "" ∧
      (handlePostTodos t body i c).2 = t ++ [⟨i, jsTrim s, 0, c⟩] := by
  unfold handlePostTodos
  split
  · left; rfl
  · left; rfl
  · split
    · next s heq =>
        split
        · left; rfl
        · next hcond =>
            split
            · left; rfl
            · right
              refine ⟨s, ?_, rfl⟩
              simp only [Bool.or_eq_true, beq_iff_eq, not_or] at hcond
              exact hcond.2
    · left; rfl

theorem handlePatchTodo_ok {t : Table} {pid : String} {v : JValue} {b : Bool}
    (hv : jsField v "completed" = some (JValue.jbool b))
    {r0 : Row} (hex : getById t pid = some r0) :
    handlePatchTodo t pid (some v) =
      (⟨200, RespBody.json (rowToJson { r0 with completed := if b then 1 else 0 })⟩,
       updateCompleted t pid (if b then 1 else 0)) := by
  have hvnn : v ≠ JValue.jnull := by
    intro he; subst he; simp [jsField] at hv
  have hupd := getById_updateCompleted_self (if b then 1 else 0) hex
  unfold handlePatchTodo
  split
  · next heq => exact Option.noConfusion heq
  · next heq => injection heq with e; exact absurd e hvnn
  · next val hne heq =>
      injection heq with e
      subst e
      simp only [hv, hex, hupd, jsonOfLookup]

theorem handlePatchTodo_table (t : Table) (pid : String) (body : Option JValue) :
    (handlePatchTodo t pid body).2 = t ∨
    ∃ b : Bool,
      (handlePatchTodo t pid body).2 = updateCompleted t pid (if b then 1 else 0) := by
  unfold handlePatchTodo
  split
  · left; rfl
  · left; rfl
  · split
    · next b heq =>
        split
        · left; rfl
        · right; exact ⟨b, rfl⟩
    · left; rfl

theorem handlePatchTodo_badtype {t : Table} {pid : String} {v : JValue}
    (hvnn : v ≠ JValue.jnull)
    (hb : ∀ b : Bool, jsField v "completed" ≠ some (JValue.jbool b)) :
    handlePatchTodo t pid (some v) = (⟨400, RespBody.text "Invalid request"⟩, t) := by
  unfold handlePatchTodo
  split
  · next heq => exact Option.noConfusion heq
  · next heq => injection heq with e; exact absurd e hvnn
  · next val hne heq =>
      injection heq with e
      subst e
      split
      · next b heq2 => exact absurd heq2 (hb b)
      · rfl

theorem handleDeleteTodo_present {t : Table} {pid : String} {r0 : Row}
    (hex : getById t pid = some r0) :
    handleDeleteTodo t pid = (⟨204, RespBody.empty⟩, deleteById t pid) := by
  unfold handleDeleteTodo
  simp only [hex]

theorem handleDeleteTodo_absent {t : Table} {pid : String}
    (hex : getById t pid = none) :
    handleDeleteTodo t pid = (⟨404, RespBody.text "Todo not found"⟩, t) := by
  unfold handleDeleteTodo
  simp only [hex]

theorem handleDeleteTodo_table (t : Table) (pid : String) :
    (handleDeleteTodo t pid).2 = t ∨ (handleDeleteTodo t pid).2 = deleteById t pid := by
  unfold handleDeleteTodo
  split
  · left; rfl
  · right; rfl

theorem mem_updateCompleted {t : Table} {i : String} {c : Int} {r : Row}
    (hr : r ∈ updateCompleted t i c) :
    ∃ r0 ∈ t, r.text = r0.text ∧ r.createdAt = r0.createdAt ∧ r.id = r0.id ∧
      (r.completed = r0.completed ∨ r.completed = c) := by
  rw [updateCompleted] at hr
  obtain ⟨r0, hr0, he⟩ := List.mem_map.mp hr
  refine ⟨r0, hr0, ?_⟩
  by_cases h : (r0.id == i) = true
  · rw [if_pos h] at he
    subst he
    exact ⟨rfl, rfl, rfl, Or.inr rfl⟩
  · rw [if_neg h] at he
    subst he
    exact ⟨rfl, rfl, rfl, Or.inl rfl⟩

theorem reachable_text_invariant {t : Table} (ht : Reachable t) :
    ∀ r ∈ t, jsTrim r.text ≠ "" := by
  induction ht with
  | init => intro r hr; simp at hr
  | post t body i c _ ih =>
      intro r hr
      rcases handlePostTodos_table t body i c with he | ⟨s, hs, he⟩
      · rw [he] at hr; exact ih r hr
      · rw [he] at hr
        rcases List.mem_append.mp hr with h | h
        · exact ih r h
        · have he2 : r = ⟨i, jsTrim s, 0, c⟩ := by simpa using h
          rw [he2]
          show jsTrim (jsTrim s) ≠ ""
          rw [jsTrim_idem]
          exact hs
  | patch t pid body _ ih =>
      intro r hr
      rcases handlePatchTodo_table t pid body with he | ⟨b, he⟩
      · rw [he] at hr; exact ih r hr
      · rw [he] at hr
        obtain ⟨r0, hr0, htxt, -, -, -⟩ := mem_updateCompleted hr
        rw [htxt]
        exact ih r0 hr0
  | del t pid _ ih =>
      intro r hr
      rcases handleDeleteTodo_table t pid with he | he
      · rw [he] at hr; exact ih r hr
      · rw [he] at hr
        rw [deleteById, List.mem_filter] at hr
        exact ih r hr.1

theorem reachable_completed_invariant {t : Table} (ht : Reachable t) :
    ∀ r ∈ t, r.completed = 0 ∨ r.completed = 1 := by
  induction ht with
  | init => intro r hr; simp at hr
  | post t body i c _ ih =>
      intro r hr
      rcases handlePostTodos_table t body i c with he | ⟨s, hs, he⟩
      · rw [he] at hr; exact ih r hr
      · rw [he] at hr
        rcases List.mem_append.mp hr with h | h
        · exact ih r h
        · have he2 : r = ⟨i, jsTrim s, 0, c⟩ := by simpa using h
          rw [he2]
          left
          rfl
  | patch t pid body _ ih =>
      intro r hr
      rcases handlePatchTodo_table t pid body with he | ⟨b, he⟩
      · rw [he] at hr; exact ih r hr
      · rw [he] at hr
        obtain ⟨r0, hr0, -, -, -, hc⟩ := mem_updateCompleted hr
        rcases hc with hc | hc
        · rw [hc]; exact ih r0 hr0
        · rw [hc]; cases b
          · left; rfl
          · right; rfl
  | del t pid _ ih =>
      intro r hr
      rcases handleDeleteTodo_table t pid with he | he
      · rw [he] at hr; exact ih r hr
      · rw [he] at hr
        rw [deleteById, List.mem_filter] at hr
        exact ih r hr.1

theorem deleteById_length : ∀ (t : Table) (pid : String),
    (getById t pid).isSome = true → (t.map Row.id).Nodup →
    (deleteById t pid).length + 1 = t.length := by
  intro t
  induction t with
  | nil => intro pid h _; simp [getById] at h
  | cons x xs ih =>
      intro pid h hnd
      rw [List.map_cons, List.nodup_cons] at hnd
      by_cases hx : (x.id == pid) = true
      · rw [deleteById, List.filter_cons]
        rw [show (!(x.id == pid)) = false by rw [hx]; rfl]
        rw [if_neg (by simp)]
        have hxs : List.filter (fun r => !(r.id == pid)) xs = xs := by
          rw [List.filter_eq_self]
          intro a ha
          have hane : a.id ≠ pid := by
            intro he
            exact hnd.1
              (List.mem_map.mpr ⟨a, ha, by
                rw [he]; exact (show x.id = pid by simpa using hx).symm⟩)
          simpa using hane
        rw [hxs, List.length_cons]
      · rw [deleteById, List.filter_cons]
        rw [show (!(x.id == pid)) = true by
          rw [show (x.id == pid) = false from by simpa using hx]; rfl]
        rw [if_pos (by simp)]
        rw [List.length_cons, List.length_cons]
        have hsome : (getById xs pid).isSome = true := by
          rw [getById] at h ⊢
          rwa [@List.find?_cons_of_neg Row (fun r => r.id == pid) x xs hx] at h
        have hlen := ih pid hsome hnd.2
        rw [deleteById] at hlen
        omega

/-! ### Claim theorems -/

/-- C1 counterexample: at `POST {text:"Buy milk"}` on an empty store the
201 response body carries `completed` as the JSON number 0 (the stored
SQLite integer serialized by `Response.json`), which is not the JSON
boolean `false` the claim states. -/
theorem post_response_completed_is_integer_cex :
    (handlePostTodos [] (some (JValue.jobj [("text", JValue.jstr "Buy milk")]))
        "id-9" "T9").1.status = 201 ∧
    (handlePostTodos [] (some (JValue.jobj [("text", JValue.jstr "Buy milk")]))
        "id-9" "T9").1.body =
      RespBody.json (JValue.jobj [("id", JValue.jstr "id-9"),
        ("text", JValue.jstr "Buy milk"), ("completed", JValue.jnum 0),
        ("createdAt", JValue.jstr "T9")]) ∧
    JValue.jnum 0 ≠ JValue.jbool false :=
  ⟨rfl, rfl, fun h => JValue.noConfusion h⟩

/-- C1 (amended): every POST whose parsed body has a string `text` that is
non-empty after trimming, with a fresh server-generated id, is answered
201 and its JSON body is the stored Todo — server-assigned id and
createdAt, the trimmed text, and `completed` equal to the stored integer 0
(serialized as the JSON number 0, not the boolean `false`). -/
theorem post_valid_creates_todo (t : Table) (v : JValue) (s i c : String)
    (hf : jsField v "text" = some (JValue.jstr s)) (hs : jsTrim s ≠ "")
    (hfresh : getById t i = none) :
    (handlePostTodos t (some v) i c).1.status = 201 ∧
    (handlePostTodos t (some v) i c).1.body =
      RespBody.json (rowToJson ⟨i, jsTrim s, 0, c⟩) ∧
    jsField (rowToJson ⟨i, jsTrim s, 0, c⟩) "completed" = some (JValue.jnum 0) := by
  rw [handlePostTodos_ok c hf hs hfresh]
  exact ⟨rfl, rfl, rfl⟩

/-- C1 witness: the amended claim at `POST {text:"Buy milk"}` on the empty
store. -/
theorem post_valid_creates_todo_witness :
    (handlePostTodos [] (some (JValue.jobj [("text", JValue.jstr "Buy milk")]))
        "id-1" "T1").1.status = 201 ∧
    (handlePostTodos [] (some (JValue.jobj [("text", JValue.jstr "Buy milk")]))
        "id-1" "T1").1.body =
      RespBody.json (rowToJson ⟨"id-1", jsTrim "Buy milk", 0, "T1"⟩) ∧
    jsField (rowToJson ⟨"id-1", jsTrim "Buy milk", 0, "T1"⟩) "completed" =
      some (JValue.jnum 0) :=
  post_valid_creates_todo [] (JValue.jobj [("text", JValue.jstr "Buy milk")])
    "Buy milk" "id-1" "T1" rfl (by decide) rfl

/-- C2: a PATCH whose parsed (non-null) body has no strictly boolean
`completed` field — numeric 0/1, the strings "true"/"false", null, or a
missing field — is answered 400 with the table unchanged, whether or not
the id exists: the type check precedes the existence check, so a
wrong-typed body on a non-existent id yields 400, not 404. -/
theorem patch_nonboolean_rejected_before_existence (t : Table) (pid : String)
    (v : JValue) (hvnn : v ≠ JValue.jnull)
    (hb : ∀ b : Bool, jsField v "completed" ≠ some (JValue.jbool b)) :
    (handlePatchTodo t pid (some v)).1.status = 400 ∧
    (handlePatchTodo t pid (some v)).2 = t := by
  rw [handlePatchTodo_badtype hvnn hb]
  exact ⟨rfl, rfl⟩

/-- C2 witness: `PATCH {completed:"true"}` (string, not boolean) on an
existing row answers 400 and leaves the row unchanged. -/
theorem patch_nonboolean_rejected_witness :
    (handlePatchTodo [⟨"row-1", "task", 0, "T2"⟩] "row-1"
        (some (JValue.jobj [("completed", JValue.jstr "true")]))).1.status = 400 ∧
    (handlePatchTodo [⟨"row-1", "task", 0, "T2"⟩] "row-1"
        (some (JValue.jobj [("completed", JValue.jstr "true")]))).2 =
      [⟨"row-1", "task", 0, "T2"⟩] :=
  patch_nonboolean_rejected_before_existence [⟨"row-1", "task", 0, "T2"⟩] "row-1"
    (JValue.jobj [("completed", JValue.jstr "true")])
    (fun h => JValue.noConfusion h)
    (fun b h => by
      have h2 : some (JValue.jstr "true") = some (JValue.jbool b) := h
      injection h2 with h3
      exact JValue.noConfusion h3)

/-- C3 counterexample: a POST whose body is unparseable (`req.json()`
throws) is answered 500 by the top-level error handler, not 400 as the
claim states; no row is inserted. -/
theorem post_unparseable_cex :
    (handlePostTodos [] none "id-3" "T3").1.status = 500 ∧
    ¬ (handlePostTodos [] none "id-3" "T3").1.status = 400 ∧
    (handlePostTodos [] none "id-3" "T3").2 = [] :=
  ⟨rfl, by decide, rfl⟩

/-- C3 (amended): a POST whose body fails to parse is answered 500 — the
parse exception is not caught in the route handler and escapes to the
top-level `error` handler — and no row is inserted. -/
theorem post_unparseable_maps_to_500 (t : Table) (i c : String) :
    (handlePostTodos t none i c).1.status = 500 ∧
    (handlePostTodos t none i c).2 = t :=
  ⟨rfl, rfl⟩

/-- C4: GET /api/todos returns the stored todos ordered by createdAt
descending — three rows inserted in order a, b, c at strictly increasing
timestamps come back as [c, b, a]. -/
theorem get_todos_newest_first (a b c : Row)
    (hab : a.createdAt < b.createdAt) (hbc : b.createdAt < c.createdAt) :
    handleGetTodos [a, b, c] =
      ⟨200, RespBody.json
        (JValue.jarr [rowToJson c, rowToJson b, rowToJson a])⟩ := by
  have hac : a.createdAt < c.createdAt := lt_trans hab hbc
  have h1 : listAll [a, b, c] = [c, b, a] := by
    simp [listAll, insertDesc, hab, hbc, hac]
  rw [handleGetTodos, h1]
  rfl

/-- C4 witness: three concrete rows with increasing timestamps come back
newest first. -/
theorem get_todos_newest_first_witness :
    handleGetTodos [⟨"i1", "first", 0, "2024-01-01"⟩,
        ⟨"i2", "second", 0, "2024-01-02"⟩, ⟨"i3", "third", 0, "2024-01-03"⟩] =
      ⟨200, RespBody.json
        (JValue.jarr [rowToJson ⟨"i3", "third", 0, "2024-01-03"⟩,
          rowToJson ⟨"i2", "second", 0, "2024-01-02"⟩,
          rowToJson ⟨"i1", "first", 0, "2024-01-01"⟩])⟩ :=
  get_todos_newest_first _ _ _ (String.lt_iff_toList_lt.mpr (by decide))
    (String.lt_iff_toList_lt.mpr (by decide))

/-- C5: a PATCH with a strictly boolean `completed` on an existing id
answers 200 and changes only the `completed` field: the table keeps its
length, every row keeps its position, and at each position the row differs
at most in `completed` (`id`, `text`, `createdAt` are identical); rows
whose id is not the target are entirely unchanged. -/
theorem patch_changes_only_completed (t : Table) (pid : String) (v : JValue)
    (b : Bool) (hv : jsField v "completed" = some (JValue.jbool b))
    (r0 : Row) (hex : getById t pid = some r0) :
    (handlePatchTodo t pid (some v)).1.status = 200 ∧
    (handlePatchTodo t pid (some v)).2.length = t.length ∧
    ∀ n : Nat, ∀ r : Row, t[n]? = some r →
      (handlePatchTodo t pid (some v)).2[n]? =
        some (if r.id == pid then { r with completed := if b then 1 else 0 }
              else r) ∧
      (r.id ≠ pid → (handlePatchTodo t pid (some v)).2[n]? = some r) := by
  rw [handlePatchTodo_ok hv hex]
  refine ⟨rfl, by simp [updateCompleted], ?_⟩
  intro n r hn
  constructor
  · rw [updateCompleted, List.getElem?_map, hn]
    rfl
  · intro hne
    rw [updateCompleted, List.getElem?_map, hn]
    show some (if r.id == pid then _ else r) = some r
    rw [if_neg (by simpa using hne)]

/-- C5 witness: `PATCH {completed:true}` on the single stored row. -/
theorem patch_changes_only_completed_witness :
    (handlePatchTodo [⟨"a", "task", 0, "T5"⟩] "a"
        (some (JValue.jobj [("completed", JValue.jbool true)]))).1.status = 200 ∧
    (handlePatchTodo [⟨"a", "task", 0, "T5"⟩] "a"
        (some (JValue.jobj [("completed", JValue.jbool true)]))).2.length =
      ([⟨"a", "task", 0, "T5"⟩] : Table).length ∧
    ∀ n : Nat, ∀ r : Row, ([⟨"a", "task", 0, "T5"⟩] : Table)[n]? = some r →
      (handlePatchTodo [⟨"a", "task", 0, "T5"⟩] "a"
          (some (JValue.jobj [("completed", JValue.jbool true)]))).2[n]? =
        some (if r.id == "a" then { r with completed := if true then 1 else 0 }
              else r) ∧
      (r.id ≠ "a" →
        (handlePatchTodo [⟨"a", "task", 0, "T5"⟩] "a"
            (some (JValue.jobj [("completed", JValue.jbool true)]))).2[n]? =
          some r) :=
  patch_changes_only_completed [⟨"a", "task", 0, "T5"⟩] "a"
    (JValue.jobj [("completed", JValue.jbool true)]) true rfl
    ⟨"a", "task", 0, "T5"⟩ rfl

/-- C6: deleting an existing id answers 204 with an empty body and removes
exactly the rows carrying that id (every other row survives); a second
DELETE of the same id — like any DELETE of an absent id — answers 404 and
leaves the table unchanged; when ids are unique exactly one row is
removed. -/
theorem delete_idempotent_safe (t : Table) (pid : String) (r0 : Row)
    (hex : getById t pid = some r0) :
    (handleDeleteTodo t pid).1.status = 204 ∧
    (handleDeleteTodo t pid).1.body = RespBody.empty ∧
    (handleDeleteTodo (handleDeleteTodo t pid).2 pid).1.status = 404 ∧
    (handleDeleteTodo (handleDeleteTodo t pid).2 pid).2 =
      (handleDeleteTodo t pid).2 ∧
    (∀ q : String, getById t q = none →
      (handleDeleteTodo t q).1.status = 404 ∧ (handleDeleteTodo t q).2 = t) ∧
    (∀ r ∈ t, r.id ≠ pid → r ∈ (handleDeleteTodo t pid).2) ∧
    (∀ r ∈ (handleDeleteTodo t pid).2, r ∈ t ∧ r.id ≠ pid) ∧
    ((t.map Row.id).Nodup →
      (handleDeleteTodo t pid).2.length + 1 = t.length) := by
  have hdel := handleDeleteTodo_present hex
  have hnone := getById_deleteById t pid
  simp only [hdel]
  refine ⟨trivial, trivial, ?_, ?_, ?_, ?_, ?_, ?_⟩
  · rw [handleDeleteTodo_absent hnone]
  · rw [handleDeleteTodo_absent hnone]
  · intro q hq
    rw [handleDeleteTodo_absent hq]
    exact ⟨rfl, rfl⟩
  · intro r hr hne
    rw [deleteById]
    exact List.mem_filter.mpr ⟨hr, by simpa using hne⟩
  · intro r hr
    rw [deleteById, List.mem_filter] at hr
    exact ⟨hr.1, by simpa using hr.2⟩
  · intro hnd
    exact deleteById_length t pid (by rw [hex]; rfl) hnd

/-- C6 witness: deleting the single stored row twice. -/
theorem delete_idempotent_safe_witness :
    (handleDeleteTodo [⟨"d1", "task", 0, "T6"⟩] "d1").1.status = 204 ∧
    (handleDeleteTodo [⟨"d1", "task", 0, "T6"⟩] "d1").1.body = RespBody.empty ∧
    (handleDeleteTodo (handleDeleteTodo [⟨"d1", "task", 0, "T6"⟩] "d1").2
        "d1").1.status = 404 ∧
    (handleDeleteTodo (handleDeleteTodo [⟨"d1", "task", 0, "T6"⟩] "d1").2
        "d1").2 = (handleDeleteTodo [⟨"d1", "task", 0, "T6"⟩] "d1").2 ∧
    (∀ q : String, getById [⟨"d1", "task", 0, "T6"⟩] q = none →
      (handleDeleteTodo [⟨"d1", "task", 0, "T6"⟩] q).1.status = 404 ∧
      (handleDeleteTodo [⟨"d1", "task", 0, "T6"⟩] q).2 =
        [⟨"d1", "task", 0, "T6"⟩]) ∧
    (∀ r ∈ ([⟨"d1", "task", 0, "T6"⟩] : Table), r.id ≠ "d1" →
      r ∈ (handleDeleteTodo [⟨"d1", "task", 0, "T6"⟩] "d1").2) ∧
    (∀ r ∈ (handleDeleteTodo [⟨"d1", "task", 0, "T6"⟩] "d1").2,
      r ∈ ([⟨"d1", "task", 0, "T6"⟩] : Table) ∧ r.id ≠ "d1") ∧
    ((([⟨"d1", "task", 0, "T6"⟩] : Table).map Row.id).Nodup →
      (handleDeleteTodo [⟨"d1", "task", 0, "T6"⟩] "d1").2.length + 1 =
        ([⟨"d1", "task", 0, "T6"⟩] : Table).length) :=
  delete_idempotent_safe [⟨"d1", "task", 0, "T6"⟩] "d1" ⟨"d1", "task", 0, "T6"⟩ rfl

/-- C7: GET /api/todos/:id on an id with no stored row answers 404 with a
plain-text body — never 200, never a JSON-null or empty body; on a stored
id it answers 200 with that row as the JSON body. -/
theorem get_todo_not_found_distinct (t : Table) (pid : String) :
    (getById t pid = none →
      handleGetTodo t pid = ⟨404, RespBody.text "Todo not found"⟩ ∧
      (handleGetTodo t pid).status ≠ 200 ∧
      (handleGetTodo t pid).body ≠ RespBody.json JValue.jnull ∧
      (handleGetTodo t pid).body ≠ RespBody.empty) ∧
    (∀ r : Row, getById t pid = some r →
      handleGetTodo t pid = ⟨200, RespBody.json (rowToJson r)⟩) := by
  constructor
  · intro h
    have he : handleGetTodo t pid = ⟨404, RespBody.text "Todo not found"⟩ := by
      unfold handleGetTodo
      simp only [h]
    rw [he]
    exact ⟨rfl, by decide, fun hc => RespBody.noConfusion hc,
      fun hc => RespBody.noConfusion hc⟩
  · intro r h
    unfold handleGetTodo
    simp only [h]

/-- C7 witness: an unknown id on the empty store answers 404 with a
plain-text body. -/
theorem get_todo_not_found_distinct_witness :
    handleGetTodo [] "nope" = ⟨404, RespBody.text "Todo not found"⟩ ∧
    (handleGetTodo [] "nope").status ≠ 200 ∧
    (handleGetTodo [] "nope").body ≠ RespBody.json JValue.jnull ∧
    (handleGetTodo [] "nope").body ≠ RespBody.empty :=
  (get_todo_not_found_distinct [] "nope").1 rfl

/-- C8: an accepted POST stores the trimmed text, never the raw value, and
trimming is idempotent: the stored text is `jsTrim s` and
`jsTrim (jsTrim s) = jsTrim s`. -/
theorem post_stores_trimmed_text (t : Table) (v : JValue) (s i c : String)
    (hf : jsField v "text" = some (JValue.jstr s)) (hs : jsTrim s ≠ "")
    (hfresh : getById t i = none) :
    (handlePostTodos t (some v) i c).2 = t ++ [⟨i, jsTrim s, 0, c⟩] ∧
    jsTrim (jsTrim s) = jsTrim s := by
  rw [handlePostTodos_ok c hf hs hfresh]
  exact ⟨rfl, jsTrim_idem s⟩

/-- C8 witness: `POST {text:"  Buy milk  "}` stores exactly the trimmed
text. -/
theorem post_stores_trimmed_text_witness :
    (handlePostTodos [] (some (JValue.jobj [("text", JValue.jstr "  Buy milk  ")]))
        "id-8" "T8").2 = [] ++ [⟨"id-8", jsTrim "  Buy milk  ", 0, "T8"⟩] ∧
    jsTrim (jsTrim "  Buy milk  ") = jsTrim "  Buy milk  " :=
  post_stores_trimmed_text [] (JValue.jobj [("text", JValue.jstr "  Buy milk  ")])
    "  Buy milk  " "id-8" "T8" rfl (by decide) rfl

/-- C9: in every table reachable from the empty store through the five API
operations, every stored row's text is non-empty and not whitespace-only
(POST validates before inserting, PATCH writes only `completed`, DELETE
only removes rows). -/
theorem reachable_text_never_blank (t : Table) (ht : Reachable t) (r : Row)
    (hr : r ∈ t) : r.text ≠ "" ∧ jsTrim r.text ≠ "" := by
  have h := reachable_text_invariant ht r hr
  refine ⟨?_, h⟩
  intro he
  rw [he] at h
  exact h rfl

/-- C9 witness: the row created by `POST {text:"hi"}` from the empty
store. -/
theorem reachable_text_never_blank_witness :
    (⟨"id-w9", "hi", 0, "T9w"⟩ : Row).text ≠ "" ∧
    jsTrim (⟨"id-w9", "hi", 0, "T9w"⟩ : Row).text ≠ "" :=
  reachable_text_never_blank
    (handlePostTodos [] (some (JValue.jobj [("text", JValue.jstr "hi")]))
      "id-w9" "T9w").2
    (Reachable.post [] (some (JValue.jobj [("text", JValue.jstr "hi")]))
      "id-w9" "T9w" Reachable.init)
    ⟨"id-w9", "hi", 0, "T9w"⟩ (by decide)

/-- C10: every reachable row stores `completed` as the integer 0 or 1
(POST inserts the literal 0, PATCH writes `completed ? 1 : 0`), and the
row's wire serialization — the Todo JSON returned by GET /api/todos,
GET /api/todos/:id, POST and PATCH, all of which serialize stored rows via
`rowToJson` — carries `completed` as that stored integer, a JSON number
and never a JSON boolean. -/
theorem completed_integer_on_wire (t : Table) (ht : Reachable t) (r : Row)
    (hr : r ∈ t) :
    (r.completed = 0 ∨ r.completed = 1) ∧
    jsField (rowToJson r) "completed" = some (JValue.jnum r.completed) ∧
    ∀ b : Bool, jsField (rowToJson r) "completed" ≠ some (JValue.jbool b) := by
  refine ⟨reachable_completed_invariant ht r hr, rfl, ?_⟩
  intro b h
  have h2 : some (JValue.jnum r.completed) = some (JValue.jbool b) := h
  injection h2 with h3
  exact JValue.noConfusion h3

/-- C10 witness: the row created by `POST {text:"task"}` from the empty
store. -/
theorem completed_integer_on_wire_witness :
    ((⟨"id-wa", "task", 0, "Ta"⟩ : Row).completed = 0 ∨
      (⟨"id-wa", "task", 0, "Ta"⟩ : Row).completed = 1) ∧
    jsField (rowToJson ⟨"id-wa", "task", 0, "Ta"⟩) "completed" =
      some (JValue.jnum (⟨"id-wa", "task", 0, "Ta"⟩ : Row).completed) ∧
    (∀ b : Bool, jsField (rowToJson ⟨"id-wa", "task", 0, "Ta"⟩) "completed" ≠
      some (JValue.jbool b)) :=
  completed_integer_on_wire
    (handlePostTodos [] (some (JValue.jobj [("text", JValue.jstr "task")]))
      "id-wa" "Ta").2
    (Reachable.post [] (some (JValue.jobj [("text", JValue.jstr "task")]))
      "id-wa" "Ta" Reachable.init)
    ⟨"id-wa", "task", 0, "Ta"⟩ (by decide)

end TodoApp
